import Mathlib

/-!
Verification of the memvid-cf semantic retrieval core.

The embedding models the TypeScript sources:
* `cosineSimilarity` from the utilities module, including JavaScript
  number semantics (NaN and signed infinities) for out-of-range array
  access and division by zero;
* the best-match selection loop, threshold gate, and artifact lookup of
  the POST /query handler in src/worker.tsx;
* the POST /encode handler in src/worker.tsx together with the
  PRIMARY KEY constraint of the entries table from the initial migration.

Vector entries are idealized as real numbers.
-/

namespace Memvid

noncomputable section

/-- A JavaScript number: a finite real, positive or negative infinity, or NaN. -/
inductive JSVal where
  | num (x : ℝ)
  | posInf
  | negInf
  | nan

/-- JavaScript addition on `JSVal`. -/
def jsAdd : JSVal → JSVal → JSVal
  | .nan, _ => .nan
  | _, .nan => .nan
  | .num x, .num y => .num (x + y)
  | .num _, .posInf => .posInf
  | .posInf, .num _ => .posInf
  | .num _, .negInf => .negInf
  | .negInf, .num _ => .negInf
  | .posInf, .posInf => .posInf
  | .negInf, .negInf => .negInf
  | .posInf, .negInf => .nan
  | .negInf, .posInf => .nan

/-- JavaScript multiplication on `JSVal`. -/
def jsMul : JSVal → JSVal → JSVal
  | .nan, _ => .nan
  | _, .nan => .nan
  | .num x, .num y => .num (x * y)
  | .num x, .posInf => if x = 0 then .nan else if 0 < x then .posInf else .negInf
  | .posInf, .num x => if x = 0 then .nan else if 0 < x then .posInf else .negInf
  | .num x, .negInf => if x = 0 then .nan else if 0 < x then .negInf else .posInf
  | .negInf, .num x => if x = 0 then .nan else if 0 < x then .negInf else .posInf
  | .posInf, .posInf => .posInf
  | .negInf, .negInf => .posInf
  | .posInf, .negInf => .negInf
  | .negInf, .posInf => .negInf

/-- JavaScript division on `JSVal` (sign of zero ignored: denominators
arising in this development are nonnegative). -/
def jsDiv : JSVal → JSVal → JSVal
  | .nan, _ => .nan
  | _, .nan => .nan
  | .num x, .num y =>
      if y = 0 then (if x = 0 then .nan else if 0 < x then .posInf else .negInf)
      else .num (x / y)
  | .num _, .posInf => .num 0
  | .num _, .negInf => .num 0
  | .posInf, .num y => if 0 ≤ y then .posInf else .negInf
  | .negInf, .num y => if 0 ≤ y then .negInf else .posInf
  | .posInf, .posInf => .nan
  | .posInf, .negInf => .nan
  | .negInf, .posInf => .nan
  | .negInf, .negInf => .nan

/-- JavaScript Math.sqrt on `JSVal`. -/
def jsSqrt : JSVal → JSVal
  | .num x => if x < 0 then .nan else .num (Real.sqrt x)
  | .posInf => .posInf
  | .negInf => .nan
  | .nan => .nan

/-- The JavaScript strict comparison a < b; false whenever either side is NaN. -/
def jsLt : JSVal → JSVal → Bool
  | .nan, _ => false
  | _, .nan => false
  | .num x, .num y => decide (x < y)
  | .num _, .posInf => true
  | .posInf, .num _ => false
  | .num _, .negInf => false
  | .negInf, .num _ => true
  | .posInf, .posInf => false
  | .negInf, .negInf => false
  | .negInf, .posInf => true
  | .posInf, .negInf => false

/-- The JavaScript strict comparison a > b. -/
def jsGt (a b : JSVal) : Bool := jsLt b a

/-- The finite value carried by a `JSVal`, defaulting to 0 for the non-finite
values; used only to phrase specifications about values known to be finite. -/
def JSVal.toReal : JSVal → ℝ
  | .num x => x
  | _ => 0

/-- JavaScript array access b[i] as used in arithmetic: an out-of-range
access yields undefined, which arithmetic coerces to NaN. -/
def jsIdx (b : List ℝ) (i : Nat) : JSVal :=
  match b.get? i with
  | some x => .num x
  | none => .nan

/-- The indexed left fold of the reduce call computing the dot product in
`cosineSimilarity`: sum starts at 0, each step adds a[i] * b[i], where the
access into b may fall out of range. -/
def dotGo (b : List ℝ) : List ℝ → Nat → JSVal → JSVal
  | [], _, sum => sum
  | ai :: rest, i, sum => dotGo b rest (i + 1) (jsAdd sum (jsMul (.num ai) (jsIdx b i)))

/-- The dot-product reduce of `cosineSimilarity`:
a.reduce((sum, ai, i) => sum + ai * b[i], 0). -/
def jsDot (a b : List ℝ) : JSVal := dotGo b a 0 (.num 0)

/-- The sum-of-squares reduce of `cosineSimilarity`:
v.reduce((sum, vi) => sum + vi * vi, 0). -/
def jsSumSq (a : List ℝ) : JSVal :=
  a.foldl (fun sum ai => jsAdd sum (jsMul (.num ai) (.num ai))) (.num 0)

/-- Shallow embedding of cosineSimilarity from the utilities module:
dot / (Math.sqrt(sumSq a) * Math.sqrt(sumSq b)) under JavaScript number
semantics. There is no length check and no zero-magnitude guard. -/
def cosineSimilarity (a b : List ℝ) : JSVal :=
  jsDiv (jsDot a b) (jsMul (jsSqrt (jsSumSq a)) (jsSqrt (jsSumSq b)))

/-- Mathematical dot product of two real vectors (over the common prefix,
which is the whole of both vectors when lengths agree). -/
def dotR (a b : List ℝ) : ℝ := ((a.zip b).map fun p => p.1 * p.2).sum

/-- Mathematical sum of squares of a real vector. -/
def sumSq (a : List ℝ) : ℝ := (a.map fun x => x * x).sum

/-- Euclidean norm of a real vector. -/
def normR (a : List ℝ) : ℝ := Real.sqrt (sumSq a)

/-- A row of the entries table: id, text, embedding (already parsed back to
a numeric vector) and created_at. -/
structure Row where
  id : String
  text : String
  embedding : List ℝ
  created_at : String

/-- The best-match selection loop of the /query handler: bestMatch starts
null, bestScore starts -Infinity, and a row becomes the best match exactly
when its score compares strictly greater than the best score so far. -/
def selectLoop (queryVec : List ℝ) (results : List Row) : Option Row × JSVal :=
  results.foldl
    (fun acc row =>
      let score := cosineSimilarity queryVec row.embedding
      if jsGt score acc.2 then (some row, score) else acc)
    (none, .negInf)

/-- The selection loop instrumented with a counter of comparator calls:
one similarity computation per row visited. -/
def selectLoopCount (queryVec : List ℝ) (results : List Row) :
    (Option Row × JSVal) × Nat :=
  results.foldl
    (fun acc row =>
      let score := cosineSimilarity queryVec row.embedding
      ((if jsGt score acc.1.2 then (some row, score) else acc.1), acc.2 + 1))
    ((none, .negInf), 0)

/-- The real similarity score of a row against a query vector, for rows
whose comparator result is a finite number. -/
def scoreR (queryVec : List ℝ) (r : Row) : ℝ :=
  (cosineSimilarity queryVec r.embedding).toReal

/-- The acceptance gate of the /query handler: after the loop, the request
falls through to notFound when bestMatch is null or bestScore < 0.6. -/
def acceptedMatch (queryVec : List ℝ) (results : List Row) :
    Option (Row × JSVal) :=
  match selectLoop queryVec results with
  | (none, _) => none
  | (some row, bestScore) =>
      if jsLt bestScore (.num 0.6) then none else some (row, bestScore)

/-- Outcome of the /query handler. notFound models c.notFound (404), found
models the 200 JSON response, internalError models the catch branch (500). -/
inductive QueryOutcome where
  | notFound
  | internalError
  | found (id text qrCode : String) (score : JSVal) (createdAt : String)

/-- Shallow embedding of the /query handler after validation and embedding:
empty result set is notFound; then the selection loop and the threshold gate;
then the artifact fetch from the bucket under the key id ++ ".svg", whose
absence also yields notFound. -/
def queryHandler (queryVec : List ℝ) (results : List Row)
    (bucket : String → Option String) : QueryOutcome :=
  if results.isEmpty then .notFound
  else
    match acceptedMatch queryVec results with
    | none => .notFound
    | some (row, score) =>
      match bucket (row.id ++ ".svg") with
      | none => .notFound
      | some qr => .found row.id row.text qr score row.created_at

/-- The externally owned stores: the blob bucket of rendered artifacts and
the entries table. -/
structure Stores where
  bucket : String → Option String
  rows : List Row

/-- Outcome of the /encode handler: the 200 success JSON or the catch
branch (500). -/
inductive EncodeOutcome where
  | ok
  | internalError

/-- Shallow embedding of the /encode handler after validation: render the
QR artifact, persist it in the bucket under id ++ ".svg", call the embedding
provider, then insert the row. The insert is rejected when a row with the
same id already exists (PRIMARY KEY of the entries table); any failure after
the artifact write reaches the catch branch with the artifact already
stored and the entries table unchanged. -/
def encodeHandler (rid text : String) (render : String → String)
    (embed : String → Option (List ℝ)) (now : String) (st : Stores) :
    EncodeOutcome × Stores :=
  let svg := render text
  let bucket' : String → Option String :=
    fun k => if k = rid ++ ".svg" then some svg else st.bucket k
  match embed text with
  | none => (.internalError, { st with bucket := bucket' })
  | some emb =>
      if st.rows.any (fun r => r.id == rid) then
        (.internalError, { st with bucket := bucket' })
      else
        (.ok, { bucket := bucket', rows := st.rows ++ [⟨rid, text, emb, now⟩] })

end

/-! Evaluation lemmas for the JavaScript-number operations. -/

theorem jsAdd_num_num (x y : ℝ) : jsAdd (.num x) (.num y) = .num (x + y) := rfl

theorem jsAdd_nan_left (v : JSVal) : jsAdd .nan v = .nan := by
  cases v <;> rfl

theorem jsAdd_nan_right (v : JSVal) : jsAdd v .nan = .nan := by
  cases v <;> rfl

theorem jsMul_num_num (x y : ℝ) : jsMul (.num x) (.num y) = .num (x * y) := rfl

theorem jsDiv_num_num_of_ne (x y : ℝ) (h : y ≠ 0) :
    jsDiv (.num x) (.num y) = .num (x / y) := by
  simp [jsDiv, h]

theorem jsDiv_num_zero_zero : jsDiv (.num 0) (.num 0) = .nan := by
  simp [jsDiv]

theorem jsDiv_nan_left (v : JSVal) : jsDiv .nan v = .nan := by
  cases v <;> rfl

theorem jsSqrt_num_of_nonneg (x : ℝ) (h : 0 ≤ x) :
    jsSqrt (.num x) = .num (Real.sqrt x) := by
  simp [jsSqrt, not_lt.mpr h]

theorem jsLt_num_num (x y : ℝ) : jsLt (.num x) (.num y) = decide (x < y) := rfl

theorem jsLt_negInf_num (x : ℝ) : jsLt .negInf (.num x) = true := rfl

theorem jsLt_nan_right (v : JSVal) : jsLt v .nan = false := by
  cases v <;> rfl

theorem jsGt_nan_left (v : JSVal) : jsGt .nan v = false := jsLt_nan_right v

theorem jsGt_num_negInf (x : ℝ) : jsGt (.num x) .negInf = true := rfl

theorem jsGt_num_num (x y : ℝ) : jsGt (.num x) (.num y) = decide (y < x) := rfl

/-! Lemmas about the mathematical dot product and sum of squares. -/

theorem dotR_nil_left (b : List ℝ) : dotR [] b = 0 := rfl

theorem dotR_nil_right (a : List ℝ) : dotR a [] = 0 := by
  simp [dotR]

theorem dotR_cons_cons (x y : ℝ) (xs ys : List ℝ) :
    dotR (x :: xs) (y :: ys) = x * y + dotR xs ys := by
  simp [dotR]

theorem dotR_comm (a b : List ℝ) : dotR a b = dotR b a := by
  induction a generalizing b with
  | nil => cases b <;> simp [dotR]
  | cons x xs ih =>
    cases b with
    | nil => simp [dotR]
    | cons y ys => rw [dotR_cons_cons, dotR_cons_cons, ih, mul_comm]

theorem dotR_eq_zero_left (a b : List ℝ) (h : ∀ x ∈ a, x = 0) : dotR a b = 0 := by
  induction a generalizing b with
  | nil => rfl
  | cons x xs ih =>
    cases b with
    | nil => simp [dotR]
    | cons y ys =>
      rw [dotR_cons_cons, h x (by simp), ih ys fun z hz => h z (by simp [hz])]
      ring

theorem sumSq_nil : sumSq [] = 0 := rfl

theorem sumSq_cons (x : ℝ) (xs : List ℝ) : sumSq (x :: xs) = x * x + sumSq xs := by
  simp [sumSq]

theorem sumSq_nonneg (a : List ℝ) : 0 ≤ sumSq a := by
  induction a with
  | nil => simp [sumSq_nil]
  | cons x xs ih =>
    rw [sumSq_cons]
    have := mul_self_nonneg x
    linarith

theorem eq_zero_of_sumSq_eq_zero (a : List ℝ) (h : sumSq a = 0) :
    ∀ x ∈ a, x = 0 := by
  induction a with
  | nil => simp
  | cons x xs ih =>
    rw [sumSq_cons] at h
    have hx : x * x = 0 ∧ sumSq xs = 0 :=
      (add_eq_zero_iff_of_nonneg (mul_self_nonneg x) (sumSq_nonneg xs)).mp h
    intro z hz
    rcases List.mem_cons.mp hz with hz | hz
    · exact hz ▸ mul_self_eq_zero.mp hx.1
    · exact ih hx.2 z hz

/-! The JavaScript folds agree with the mathematical functions when every
array access stays in range. -/

theorem jsSumSq_go (a : List ℝ) :
    ∀ s : ℝ,
      a.foldl (fun sum ai => jsAdd sum (jsMul (.num ai) (.num ai))) (JSVal.num s)
        = .num (s + sumSq a) := by
  induction a with
  | nil => intro s; simp [sumSq_nil]
  | cons x xs ih =>
    intro s
    rw [List.foldl_cons, jsMul_num_num, jsAdd_num_num, ih, sumSq_cons, add_assoc]

theorem jsSumSq_eq (a : List ℝ) : jsSumSq a = .num (sumSq a) := by
  rw [jsSumSq, jsSumSq_go, zero_add]

theorem dotGo_nan_acc (b : List ℝ) : ∀ (a : List ℝ) (i : Nat), dotGo b a i .nan = .nan := by
  intro a
  induction a with
  | nil => intro i; rfl
  | cons x xs ih =>
    intro i
    rw [dotGo, jsAdd_nan_left, ih]

theorem dotGo_eq_num (b : List ℝ) :
    ∀ (a : List ℝ) (i : Nat) (s : ℝ), i + a.length ≤ b.length →
      dotGo b a i (.num s) = .num (s + dotR a (b.drop i)) := by
  intro a
  induction a with
  | nil => intro i s _; simp [dotGo, dotR_nil_left]
  | cons x xs ih =>
    intro i s h
    have hib : i < b.length := by simp at h; omega
    have hidx : jsIdx b i = .num b[i] := by
      simp [jsIdx, List.get?_eq_getElem?, List.getElem?_eq_getElem hib]
    rw [dotGo, hidx, jsMul_num_num, jsAdd_num_num,
      ih (i + 1) (s + x * b[i]) (by simp at h ⊢; omega),
      List.drop_eq_getElem_cons hib, dotR_cons_cons, add_assoc]

theorem jsDot_eq_num (a b : List ℝ) (h : a.length ≤ b.length) :
    jsDot a b = .num (dotR a b) := by
  rw [jsDot, dotGo_eq_num b a 0 0 (by omega), List.drop_zero, zero_add]

theorem dotGo_nan_of_overflow (b : List ℝ) :
    ∀ (a : List ℝ), a ≠ [] → ∀ (i : Nat) (s : ℝ), b.length < i + a.length →
      dotGo b a i (.num s) = .nan := by
  intro a
  induction a with
  | nil => intro h; exact absurd rfl h
  | cons x xs ih =>
    intro _ i s h
    by_cases hib : i < b.length
    · have hxs : xs ≠ [] := by
        intro hx
        subst hx
        simp at h
        omega
      have hidx : jsIdx b i = .num b[i] := by
        simp [jsIdx, List.get?_eq_getElem?, List.getElem?_eq_getElem hib]
      have hlt : b.length < (i + 1) + xs.length := by simp at h; omega
      rw [dotGo, hidx, jsMul_num_num, jsAdd_num_num]
      exact ih hxs (i + 1) (s + x * b[i]) hlt
    · have hidx : jsIdx b i = .nan := by
        simp [jsIdx, List.get?_eq_getElem?,
          List.getElem?_eq_none (show b.length ≤ i by omega)]
      have hstep : jsAdd (JSVal.num s) (jsMul (.num x) .nan) = .nan := rfl
      rw [dotGo, hidx, hstep, dotGo_nan_acc]

theorem jsDot_nan (a b : List ℝ) (h : b.length < a.length) : jsDot a b = .nan := by
  have ha : a ≠ [] := by
    intro hx
    subst hx
    simp at h
  rw [jsDot]
  exact dotGo_nan_of_overflow b a ha 0 0 (by omega)

/-! Evaluation of the comparator itself. -/

theorem cosineSimilarity_eval (a b : List ℝ) (h : a.length ≤ b.length) :
    cosineSimilarity a b
      = jsDiv (.num (dotR a b)) (.num (normR a * normR b)) := by
  rw [cosineSimilarity, jsDot_eq_num a b h, jsSumSq_eq, jsSumSq_eq,
    jsSqrt_num_of_nonneg _ (sumSq_nonneg a), jsSqrt_num_of_nonneg _ (sumSq_nonneg b),
    jsMul_num_num, normR, normR]

theorem cosineSimilarity_nan_of_longer (a b : List ℝ) (h : b.length < a.length) :
    cosineSimilarity a b = .nan := by
  rw [cosineSimilarity, jsDot_nan a b h, jsDiv_nan_left]

/-! The selection loop: a strict greater-than left fold. When every score is
a finite number, the fold keeps the first row attaining the maximum score. -/

theorem selectLoop_fold_step (q : List ℝ) (rows : List Row) (m : Option Row)
    (s : JSVal) (r1 : Row) :
    List.foldl
        (fun acc row =>
          let score := cosineSimilarity q row.embedding
          if jsGt score acc.2 then (some row, score) else acc)
        (m, s) (r1 :: rows)
      = List.foldl
        (fun acc row =>
          let score := cosineSimilarity q row.embedding
          if jsGt score acc.2 then (some row, score) else acc)
        (if jsGt (cosineSimilarity q r1.embedding) s
          then (some r1, cosineSimilarity q r1.embedding) else (m, s))
        rows := rfl

theorem selectLoopCount_fold_step (q : List ℝ) (rows : List Row) (m : Option Row)
    (s : JSVal) (n : Nat) (r1 : Row) :
    List.foldl
        (fun acc row =>
          let score := cosineSimilarity q row.embedding
          ((if jsGt score acc.1.2 then (some row, score) else acc.1), acc.2 + 1))
        ((m, s), n) (r1 :: rows)
      = List.foldl
        (fun acc row =>
          let score := cosineSimilarity q row.embedding
          ((if jsGt score acc.1.2 then (some row, score) else acc.1), acc.2 + 1))
        ((if jsGt (cosineSimilarity q r1.embedding) s
            then (some r1, cosineSimilarity q r1.embedding) else (m, s)), n + 1)
        rows := rfl

theorem selectLoop_go_spec (q : List ℝ) :
    ∀ (rs : List Row) (r0 : Row),
      (∀ r ∈ r0 :: rs, ∃ x : ℝ, cosineSimilarity q r.embedding = JSVal.num x) →
      ∃ r pre post,
        rs.foldl
          (fun acc row =>
            let score := cosineSimilarity q row.embedding
            if jsGt score acc.2 then (some row, score) else acc)
          (some r0, cosineSimilarity q r0.embedding)
          = (some r, cosineSimilarity q r.embedding) ∧
        r0 :: rs = pre ++ r :: post ∧
        (∀ r' ∈ pre, scoreR q r' < scoreR q r) ∧
        (∀ r' ∈ r0 :: rs, scoreR q r' ≤ scoreR q r) := by
  intro rs
  induction rs with
  | nil =>
    intro r0 _
    exact ⟨r0, [], [], rfl, rfl, by simp, by simp⟩
  | cons r1 rs' ih =>
    intro r0 hnum
    obtain ⟨x0, hx0⟩ := hnum r0 (by simp)
    obtain ⟨x1, hx1⟩ := hnum r1 (by simp)
    have hs0 : scoreR q r0 = x0 := by rw [scoreR, hx0]; rfl
    have hs1 : scoreR q r1 = x1 := by rw [scoreR, hx1]; rfl
    have hcond : jsGt (cosineSimilarity q r1.embedding) (cosineSimilarity q r0.embedding)
        = decide (x0 < x1) := by rw [hx0, hx1]; rfl
    rw [selectLoop_fold_step, hcond]
    by_cases h : x0 < x1
    · rw [if_pos (decide_eq_true h)]
      obtain ⟨r, pre', post', hfold, hsplit, hpre, hmax⟩ :=
        ih r1 (fun r hr => hnum r (List.mem_cons_of_mem r0 hr))
      refine ⟨r, r0 :: pre', post', hfold, ?_, ?_, ?_⟩
      · rw [List.cons_append, ← hsplit]
      · intro r' hr'
        rcases List.mem_cons.mp hr' with hr' | hr'
        · subst hr'
          calc scoreR q r' = x0 := hs0
            _ < x1 := h
            _ = scoreR q r1 := hs1.symm
            _ ≤ scoreR q r := hmax r1 (by simp)
        · exact hpre r' hr'
      · intro r' hr'
        rcases List.mem_cons.mp hr' with hr' | hr'
        · subst hr'
          calc scoreR q r' = x0 := hs0
            _ ≤ x1 := le_of_lt h
            _ = scoreR q r1 := hs1.symm
            _ ≤ scoreR q r := hmax r1 (by simp)
        · exact hmax r' hr'
    · rw [if_neg (by simpa using h)]
      have hle : x1 ≤ x0 := le_of_not_lt h
      obtain ⟨r, pre', post', hfold, hsplit, hpre, hmax⟩ :=
        ih r0 (by
          intro r hr
          rcases List.mem_cons.mp hr with hr | hr
          · exact hnum r (hr ▸ List.mem_cons_self r0 _)
          · exact hnum r (by simp [hr]))
      cases pre' with
      | nil =>
        simp only [List.nil_append, List.cons.injEq] at hsplit
        obtain ⟨hr0, hpost⟩ := hsplit
        refine ⟨r, [], r1 :: rs', hfold, by rw [List.nil_append, hr0], by simp, ?_⟩
        intro r' hr'
        rcases List.mem_cons.mp hr' with hr' | hr'
        · exact hr' ▸ hmax r0 (by simp)
        · rcases List.mem_cons.mp hr' with hr' | hr'
          · subst hr'
            calc scoreR q r' = x1 := hs1
              _ ≤ x0 := hle
              _ = scoreR q r0 := hs0.symm
              _ ≤ scoreR q r := hmax r0 (by simp)
          · exact hmax r' (by simp [hr'])
      | cons p pre'' =>
        simp only [List.cons_append, List.cons.injEq] at hsplit
        obtain ⟨hp, hrs⟩ := hsplit
        have hr0pre : scoreR q r0 < scoreR q r := by
          rw [hp]
          exact hpre p (by simp)
        refine ⟨r, r0 :: r1 :: pre'', post', hfold, ?_, ?_, ?_⟩
        · rw [hrs]
          simp [List.cons_append]
        · intro r' hr'
          rcases List.mem_cons.mp hr' with hr' | hr'
          · exact hr' ▸ hr0pre
          · rcases List.mem_cons.mp hr' with hr' | hr'
            · subst hr'
              calc scoreR q r' = x1 := hs1
                _ ≤ x0 := hle
                _ = scoreR q r0 := hs0.symm
                _ < scoreR q r := hr0pre
            · exact hpre r' (hp ▸ (by simp [hr']))
        · intro r' hr'
          rcases List.mem_cons.mp hr' with hr' | hr'
          · exact hr' ▸ le_of_lt hr0pre
          · rcases List.mem_cons.mp hr' with hr' | hr'
            · subst hr'
              calc scoreR q r' = x1 := hs1
                _ ≤ x0 := hle
                _ = scoreR q r0 := hs0.symm
                _ ≤ scoreR q r := le_of_lt hr0pre
            · exact hmax r' (by simp [hr'])

theorem selectLoop_spec (q : List ℝ) (rows : List Row) (hne : rows ≠ [])
    (hnum : ∀ r ∈ rows, ∃ x : ℝ, cosineSimilarity q r.embedding = JSVal.num x) :
    ∃ r pre post,
      selectLoop q rows = (some r, cosineSimilarity q r.embedding) ∧
      rows = pre ++ r :: post ∧
      (∀ r' ∈ pre, scoreR q r' < scoreR q r) ∧
      (∀ r' ∈ rows, scoreR q r' ≤ scoreR q r) := by
  cases rows with
  | nil => exact absurd rfl hne
  | cons r0 rest =>
    obtain ⟨x0, hx0⟩ := hnum r0 (by simp)
    have hcond : jsGt (cosineSimilarity q r0.embedding) JSVal.negInf = true := by
      rw [hx0]; rfl
    rw [selectLoop, selectLoop_fold_step, hcond, if_pos rfl]
    exact selectLoop_go_spec q rest r0 hnum

theorem selectLoopCount_go_snd (q : List ℝ) :
    ∀ (rows : List Row) (acc : Option Row × JSVal) (n : Nat),
      (rows.foldl
        (fun acc row =>
          let score := cosineSimilarity q row.embedding
          ((if jsGt score acc.1.2 then (some row, score) else acc.1), acc.2 + 1))
        (acc, n)).2 = n + rows.length := by
  intro rows
  induction rows with
  | nil => intro acc n; simp
  | cons r rs ih =>
    intro acc n
    obtain ⟨m, s⟩ := acc
    rw [selectLoopCount_fold_step, ih]
    simp [List.length_cons]
    omega

theorem selectLoopCount_length (q : List ℝ) (rows : List Row) :
    (selectLoopCount q rows).2 = rows.length := by
  rw [selectLoopCount, selectLoopCount_go_snd q rows (none, .negInf) 0, Nat.zero_add]

/-! Shared helper facts used to settle the individual claims. -/

theorem dotR_eq_zero_right (a b : List ℝ) (h : ∀ y ∈ b, y = 0) : dotR a b = 0 := by
  rw [dotR_comm]
  exact dotR_eq_zero_left b a h

theorem normR_eq_zero (a : List ℝ) (h : sumSq a = 0) : normR a = 0 := by
  rw [normR, h, Real.sqrt_zero]

theorem cosineSimilarity_formula (a b : List ℝ) (hlen : a.length ≤ b.length)
    (ha : sumSq a ≠ 0) (hb : sumSq b ≠ 0) :
    cosineSimilarity a b = .num (dotR a b / (normR a * normR b)) := by
  have h1 : (0:ℝ) < normR a := by
    rw [normR]
    exact Real.sqrt_pos.mpr (lt_of_le_of_ne (sumSq_nonneg a) (Ne.symm ha))
  have h2 : (0:ℝ) < normR b := by
    rw [normR]
    exact Real.sqrt_pos.mpr (lt_of_le_of_ne (sumSq_nonneg b) (Ne.symm hb))
  rw [cosineSimilarity_eval a b hlen, jsDiv_num_num_of_ne _ _ (ne_of_gt (mul_pos h1 h2))]

theorem cosineSimilarity_nan_degenerate (a b : List ℝ) (hlen : a.length ≤ b.length)
    (hdeg : sumSq a = 0 ∨ sumSq b = 0) : cosineSimilarity a b = .nan := by
  have hdot : dotR a b = 0 := by
    rcases hdeg with h | h
    · exact dotR_eq_zero_left a b (eq_zero_of_sumSq_eq_zero a h)
    · exact dotR_eq_zero_right a b (eq_zero_of_sumSq_eq_zero b h)
  have hnorm : normR a * normR b = 0 := by
    rcases hdeg with h | h
    · rw [normR_eq_zero a h, zero_mul]
    · rw [normR_eq_zero b h, mul_zero]
  rw [cosineSimilarity_eval a b hlen, hdot, hnorm, jsDiv_num_zero_zero]

theorem sumSq_single_one : sumSq [(1:ℝ)] = 1 := by
  norm_num [sumSq]

theorem cos_one_one : cosineSimilarity [(1:ℝ)] [(1:ℝ)] = .num 1 := by
  rw [cosineSimilarity_formula _ _ (le_refl _) (by norm_num [sumSq]) (by norm_num [sumSq])]
  norm_num [dotR, normR, sumSq, Real.sqrt_one]

theorem cos_zero_one : cosineSimilarity [(0:ℝ)] [(1:ℝ)] = .nan :=
  cosineSimilarity_nan_degenerate _ _ (le_refl _) (Or.inl (by norm_num [sumSq]))

theorem selectLoop_single_nan (r : Row) (q : List ℝ)
    (h : cosineSimilarity q r.embedding = .nan) :
    selectLoop q [r] = (none, .negInf) := by
  have hcond : jsGt (cosineSimilarity q r.embedding) JSVal.negInf = false := by
    rw [h]
    rfl
  rw [selectLoop, selectLoop_fold_step, hcond, if_neg (by simp), List.foldl_nil]

theorem selectLoop_single_num (r : Row) (q : List ℝ) (x : ℝ)
    (h : cosineSimilarity q r.embedding = .num x) :
    selectLoop q [r] = (some r, cosineSimilarity q r.embedding) := by
  have hcond : jsGt (cosineSimilarity q r.embedding) JSVal.negInf = true := by
    rw [h]
    rfl
  rw [selectLoop, selectLoop_fold_step, hcond, if_pos rfl, List.foldl_nil]

theorem sumSq_two_sqrt21 : sumSq [(2:ℝ), Real.sqrt 21] = 25 := by
  have h21 : Real.sqrt 21 * Real.sqrt 21 = 21 := Real.mul_self_sqrt (by norm_num)
  simp [sumSq, h21]
  norm_num

theorem cos_04_eval :
    cosineSimilarity [(1:ℝ), 0] [(2:ℝ), Real.sqrt 21] = .num (2 / 5) := by
  have hb : sumSq [(2:ℝ), Real.sqrt 21] ≠ 0 := by rw [sumSq_two_sqrt21]; norm_num
  rw [cosineSimilarity_formula _ _ (by simp) (by norm_num [sumSq]) hb]
  have hd : dotR [(1:ℝ), 0] [(2:ℝ), Real.sqrt 21] = 2 := by simp [dotR]
  have hn1 : normR [(1:ℝ), 0] = 1 := by
    norm_num [normR, sumSq, Real.sqrt_one]
  have hn2 : normR [(2:ℝ), Real.sqrt 21] = 5 := by
    rw [normR, sumSq_two_sqrt21, show (25:ℝ) = 5 ^ 2 by norm_num,
      Real.sqrt_sq (by norm_num : (0:ℝ) ≤ 5)]
  rw [hd, hn1, hn2]
  norm_num

/-! Claim theorems. -/

/-- C1: for every pair of equal-length real vectors a and b, each of nonzero
magnitude, cosineSimilarity a b equals the dot product of a and b divided by
the product of their Euclidean norms. -/
theorem c1_cosine_is_cosine (a b : List ℝ) (hlen : a.length = b.length)
    (ha : sumSq a ≠ 0) (hb : sumSq b ≠ 0) :
    cosineSimilarity a b = .num (dotR a b / (normR a * normR b)) :=
  cosineSimilarity_formula a b hlen.le ha hb

/-- Witness for C1 at a = [1], b = [1]: hypotheses hold and the comparator
returns the cosine value. -/
theorem c1_cosine_is_cosine_witness :
    ([(1:ℝ)].length = [(1:ℝ)].length ∧ sumSq [(1:ℝ)] ≠ 0) ∧
    cosineSimilarity [(1:ℝ)] [(1:ℝ)]
      = .num (dotR [(1:ℝ)] [(1:ℝ)] / (normR [(1:ℝ)] * normR [(1:ℝ)])) :=
  ⟨⟨rfl, by norm_num [sumSq]⟩,
    c1_cosine_is_cosine [(1:ℝ)] [(1:ℝ)] rfl (by norm_num [sumSq]) (by norm_num [sumSq])⟩

/-- C9: similarity is symmetric for all equal-length vectors. -/
theorem c9_similarity_symm (a b : List ℝ) (hlen : a.length = b.length) :
    cosineSimilarity a b = cosineSimilarity b a := by
  rw [cosineSimilarity_eval a b hlen.le, cosineSimilarity_eval b a hlen.ge,
    dotR_comm, mul_comm]

/-- Witness for C9 at a = [1], b = [2]. -/
theorem c9_similarity_symm_witness :
    [(1:ℝ)].length = [(2:ℝ)].length ∧
    cosineSimilarity [(1:ℝ)] [(2:ℝ)] = cosineSimilarity [(2:ℝ)] [(1:ℝ)] :=
  ⟨rfl, c9_similarity_symm [(1:ℝ)] [(2:ℝ)] rfl⟩

/-- C4 counterexample: at a = [1] and b = [1, 0] the lengths differ, yet the
comparator silently returns the numeric score 1 instead of failing with a
DimensionMismatch error (the source has no length check at all). -/
theorem c4_counterexample :
    [(1:ℝ)].length ≠ [(1:ℝ), 0].length ∧
    cosineSimilarity [(1:ℝ)] [(1:ℝ), 0] = .num 1 := by
  refine ⟨by simp, ?_⟩
  rw [cosineSimilarity_formula _ _ (by simp) (by norm_num [sumSq]) (by norm_num [sumSq])]
  norm_num [dotR, normR, sumSq, Real.sqrt_one]

/-- C4 amended: the comparator performs no length check and never raises an
error; its unequal-length behavior is fully determined as follows. When a is
strictly shorter than b and both vectors have nonzero magnitude, it silently
computes and returns a numeric score using only the first a.length entries
of b; when a is strictly shorter than b and either vector has zero magnitude,
the division of 0 by 0 makes the result NaN; and when a is strictly longer
than b, the out-of-range accesses into b make the result NaN. In no case
does it fail fast with a DimensionMismatch error. -/
theorem c4_amended_no_dimension_check (a b : List ℝ)
    (_hne : a.length ≠ b.length) :
    (a.length < b.length → sumSq a ≠ 0 → sumSq b ≠ 0 →
      cosineSimilarity a b = .num (dotR a b / (normR a * normR b))) ∧
    (a.length < b.length → (sumSq a = 0 ∨ sumSq b = 0) →
      cosineSimilarity a b = .nan) ∧
    (b.length < a.length → cosineSimilarity a b = .nan) := by
  refine ⟨fun hlt ha hb => cosineSimilarity_formula a b hlt.le ha hb,
    fun hlt hdeg => cosineSimilarity_nan_degenerate a b hlt.le hdeg,
    fun hlt => cosineSimilarity_nan_of_longer a b hlt⟩

/-- Witness for the amended C4: at a = [1], b = [1, 0] the lengths differ and
the comparator returns a plain numeric score; at a = [0], b = [0, 1] the
lengths differ, the first vector has zero magnitude, and the comparator
returns NaN. -/
theorem c4_amended_no_dimension_check_witness :
    ([(1:ℝ)].length ≠ [(1:ℝ), 0].length ∧
      cosineSimilarity [(1:ℝ)] [(1:ℝ), 0]
        = .num (dotR [(1:ℝ)] [(1:ℝ), 0] / (normR [(1:ℝ)] * normR [(1:ℝ), 0]))) ∧
    ([(0:ℝ)].length ≠ [(0:ℝ), 1].length ∧
      cosineSimilarity [(0:ℝ)] [(0:ℝ), 1] = .nan) :=
  ⟨⟨by simp,
      (c4_amended_no_dimension_check [(1:ℝ)] [(1:ℝ), 0] (by simp)).1 (by simp)
        (by norm_num [sumSq]) (by norm_num [sumSq])⟩,
    ⟨by simp,
      (c4_amended_no_dimension_check [(0:ℝ)] [(0:ℝ), 1] (by simp)).2.1 (by simp)
        (Or.inl (by norm_num [sumSq]))⟩⟩

/-- C5 counterexample: for the zero-magnitude query vector [0] against the
stored vector [1] the comparator returns NaN, and that NaN flows into the
max-score comparison of the selection loop, which then returns no best match
at all: the behavior is neither a defined lowest similarity nor an error. -/
theorem c5_counterexample :
    cosineSimilarity [(0:ℝ)] [(1:ℝ)] = .nan ∧
    (selectLoop [(0:ℝ)] [⟨"a", "t", [(1:ℝ)], "ts"⟩]).1 = none := by
  refine ⟨cos_zero_one, ?_⟩
  rw [selectLoop_single_nan ⟨"a", "t", [(1:ℝ)], "ts"⟩ [(0:ℝ)] cos_zero_one]

/-- C5 amended: when either equal-length input has zero magnitude the
comparator yields NaN (0 divided by 0), and a NaN score never wins the strict
greater-than comparison of the selection loop, so such a candidate is
silently skipped rather than treated as lowest similarity or an error. -/
theorem c5_amended_degenerate_nan (a b : List ℝ) (hlen : a.length = b.length)
    (hdeg : sumSq a = 0 ∨ sumSq b = 0) :
    cosineSimilarity a b = .nan ∧ ∀ v, jsGt JSVal.nan v = false :=
  ⟨cosineSimilarity_nan_degenerate a b hlen.le hdeg, jsGt_nan_left⟩

/-- Witness for the amended C5 at a = [0], b = [1]. -/
theorem c5_amended_degenerate_nan_witness :
    ([(0:ℝ)].length = [(1:ℝ)].length ∧ sumSq [(0:ℝ)] = 0) ∧
    (cosineSimilarity [(0:ℝ)] [(1:ℝ)] = .nan ∧ ∀ v, jsGt JSVal.nan v = false) :=
  ⟨⟨rfl, by norm_num [sumSq]⟩,
    c5_amended_degenerate_nan [(0:ℝ)] [(1:ℝ)] rfl (Or.inl (by norm_num [sumSq]))⟩

/-- C2 counterexample: for the query vector [0] and the non-empty candidate
list holding a single row, the selection loop returns no candidate at all
(the NaN score never beats -Infinity), so it does not return the candidate
attaining the maximum score. -/
theorem c2_counterexample :
    ([(⟨"x", "y", [(1:ℝ)], "t0"⟩ : Row)] ≠ []) ∧
    (selectLoop [(0:ℝ)] [⟨"x", "y", [(1:ℝ)], "t0"⟩]).1 = none := by
  refine ⟨by simp, ?_⟩
  have h : cosineSimilarity [(0:ℝ)] (Row.embedding ⟨"x", "y", [(1:ℝ)], "t0"⟩)
      = .nan := cos_zero_one
  rw [selectLoop_single_nan _ _ h]

/-- C2 amended: when every candidate's similarity score is a finite number,
the selection loop examines each candidate exactly once (one comparator call
per row) and returns the first candidate attaining the maximum score, every
earlier candidate scoring strictly lower; a candidate whose score is NaN is
skipped instead. -/
theorem c2_amended_first_max (q : List ℝ) (rows : List Row) (hne : rows ≠ [])
    (hnum : ∀ r ∈ rows, ∃ x : ℝ, cosineSimilarity q r.embedding = JSVal.num x) :
    (∃ r pre post,
      (selectLoop q rows).1 = some r ∧
      rows = pre ++ r :: post ∧
      (∀ r' ∈ pre, scoreR q r' < scoreR q r) ∧
      (∀ r' ∈ rows, scoreR q r' ≤ scoreR q r)) ∧
    (selectLoopCount q rows).2 = rows.length := by
  refine ⟨?_, selectLoopCount_length q rows⟩
  obtain ⟨r, pre, post, hfold, hsplit, hpre, hmax⟩ := selectLoop_spec q rows hne hnum
  exact ⟨r, pre, post, by rw [hfold], hsplit, hpre, hmax⟩

/-- Witness for the amended C2 at query [1] and a single candidate of score 1. -/
theorem c2_amended_first_max_witness :
    (([(⟨"a", "t", [(1:ℝ)], "ts"⟩ : Row)] ≠ []) ∧
      (∀ r ∈ [(⟨"a", "t", [(1:ℝ)], "ts"⟩ : Row)],
        ∃ x : ℝ, cosineSimilarity [(1:ℝ)] r.embedding = JSVal.num x)) ∧
    ((∃ r pre post,
        (selectLoop [(1:ℝ)] [(⟨"a", "t", [(1:ℝ)], "ts"⟩ : Row)]).1 = some r ∧
        [(⟨"a", "t", [(1:ℝ)], "ts"⟩ : Row)] = pre ++ r :: post ∧
        (∀ r' ∈ pre, scoreR [(1:ℝ)] r' < scoreR [(1:ℝ)] r) ∧
        (∀ r' ∈ [(⟨"a", "t", [(1:ℝ)], "ts"⟩ : Row)],
          scoreR [(1:ℝ)] r' ≤ scoreR [(1:ℝ)] r)) ∧
      (selectLoopCount [(1:ℝ)] [(⟨"a", "t", [(1:ℝ)], "ts"⟩ : Row)]).2
        = [(⟨"a", "t", [(1:ℝ)], "ts"⟩ : Row)].length) := by
  have hnum : ∀ r ∈ [(⟨"a", "t", [(1:ℝ)], "ts"⟩ : Row)],
      ∃ x : ℝ, cosineSimilarity [(1:ℝ)] r.embedding = JSVal.num x := by
    intro r hr
    rw [List.mem_singleton] at hr
    subst hr
    exact ⟨1, cos_one_one⟩
  exact ⟨⟨by simp, hnum⟩, c2_amended_first_max [(1:ℝ)] _ (by simp) hnum⟩

/-- C3: the best match is accepted exactly when its score is at least the
threshold 0.6 (inclusive comparison); and for a concrete non-empty collection
whose best achievable score is 0.4 (below 0.6), retrieval returns notFound. -/
theorem c3_threshold_inclusive (q : List ℝ) (rows : List Row) (r : Row) (s : ℝ)
    (hsel : selectLoop q rows = (some r, JSVal.num s)) :
    (acceptedMatch q rows = some (r, JSVal.num s) ↔ (0.6:ℝ) ≤ s) ∧
    (∀ bucket, queryHandler [(1:ℝ), 0] [⟨"a", "t", [(2:ℝ), Real.sqrt 21], "ts"⟩] bucket
      = QueryOutcome.notFound) := by
  constructor
  · unfold acceptedMatch
    rw [hsel]
    show (if jsLt (JSVal.num s) (JSVal.num 0.6) then none else some (r, JSVal.num s))
        = some (r, JSVal.num s) ↔ (0.6:ℝ) ≤ s
    by_cases h : s < (0.6:ℝ)
    · rw [if_pos (show jsLt (JSVal.num s) (JSVal.num 0.6) = true from decide_eq_true h)]
      exact iff_of_false (by simp) (not_le.mpr h)
    · rw [if_neg (show ¬jsLt (JSVal.num s) (JSVal.num 0.6) = true from
        fun hc => h (of_decide_eq_true hc))]
      exact iff_of_true rfl (le_of_not_lt h)
  · intro bucket
    have hsel04 :
        selectLoop [(1:ℝ), 0] [⟨"a", "t", [(2:ℝ), Real.sqrt 21], "ts"⟩]
          = (some ⟨"a", "t", [(2:ℝ), Real.sqrt 21], "ts"⟩, JSVal.num (2 / 5)) := by
      rw [selectLoop_single_num ⟨"a", "t", [(2:ℝ), Real.sqrt 21], "ts"⟩ [(1:ℝ), 0]
        (2 / 5) cos_04_eval]
      rw [show cosineSimilarity [(1:ℝ), 0]
          (Row.embedding ⟨"a", "t", [(2:ℝ), Real.sqrt 21], "ts"⟩)
          = JSVal.num (2 / 5) from cos_04_eval]
    have hacc : acceptedMatch [(1:ℝ), 0] [⟨"a", "t", [(2:ℝ), Real.sqrt 21], "ts"⟩]
        = none := by
      unfold acceptedMatch
      rw [hsel04]
      show (if jsLt (JSVal.num (2 / 5)) (JSVal.num 0.6) then none
          else some ((⟨"a", "t", [(2:ℝ), Real.sqrt 21], "ts"⟩ : Row),
            JSVal.num (2 / 5))) = none
      rw [if_pos (show jsLt (JSVal.num (2 / 5)) (JSVal.num 0.6) = true from
        decide_eq_true (by norm_num))]
    unfold queryHandler
    rw [if_neg (by simp), hacc]

/-- Witness for C3: with a single candidate of score exactly 1, the loop
selects it and the acceptance gate admits it, since 1 is at least 0.6. -/
theorem c3_threshold_inclusive_witness :
    selectLoop [(1:ℝ)] [(⟨"a", "t", [(1:ℝ)], "ts"⟩ : Row)]
      = (some ⟨"a", "t", [(1:ℝ)], "ts"⟩, JSVal.num 1) ∧
    acceptedMatch [(1:ℝ)] [(⟨"a", "t", [(1:ℝ)], "ts"⟩ : Row)]
      = some (⟨"a", "t", [(1:ℝ)], "ts"⟩, JSVal.num 1) := by
  have hsel : selectLoop [(1:ℝ)] [(⟨"a", "t", [(1:ℝ)], "ts"⟩ : Row)]
      = (some ⟨"a", "t", [(1:ℝ)], "ts"⟩, JSVal.num 1) := by
    rw [selectLoop_single_num ⟨"a", "t", [(1:ℝ)], "ts"⟩ [(1:ℝ)] 1 cos_one_one]
    rw [show cosineSimilarity [(1:ℝ)] (Row.embedding ⟨"a", "t", [(1:ℝ)], "ts"⟩)
        = JSVal.num 1 from cos_one_one]
  exact ⟨hsel, ((c3_threshold_inclusive [(1:ℝ)] _ _ 1 hsel).1).mpr (by norm_num)⟩

/-- C6: retrieval over an empty stored collection returns the notFound
outcome, which is distinct from the internal-error outcome. -/
theorem c6_empty_collection (q : List ℝ) (bucket : String → Option String) :
    queryHandler q [] bucket = QueryOutcome.notFound ∧
    QueryOutcome.notFound ≠ QueryOutcome.internalError :=
  ⟨rfl, fun h => nomatch h⟩

/-- C7 counterexample: a single stored row matches the query with score 1 and
is accepted, but its artifact is absent from the bucket; the handler returns
the very same notFound outcome that an empty collection produces, instead of
a distinct ArtifactMissing fault. -/
theorem c7_counterexample :
    acceptedMatch [(1:ℝ)] [(⟨"b", "u", [(1:ℝ)], "t1"⟩ : Row)]
      = some (⟨"b", "u", [(1:ℝ)], "t1"⟩, JSVal.num 1) ∧
    queryHandler [(1:ℝ)] [(⟨"b", "u", [(1:ℝ)], "t1"⟩ : Row)] (fun _ => none)
      = QueryOutcome.notFound ∧
    queryHandler [(1:ℝ)] [] (fun _ => none) = QueryOutcome.notFound := by
  have hsel : selectLoop [(1:ℝ)] [(⟨"b", "u", [(1:ℝ)], "t1"⟩ : Row)]
      = (some ⟨"b", "u", [(1:ℝ)], "t1"⟩, JSVal.num 1) := by
    rw [selectLoop_single_num ⟨"b", "u", [(1:ℝ)], "t1"⟩ [(1:ℝ)] 1 cos_one_one]
    rw [show cosineSimilarity [(1:ℝ)] (Row.embedding ⟨"b", "u", [(1:ℝ)], "t1"⟩)
        = JSVal.num 1 from cos_one_one]
  have hacc : acceptedMatch [(1:ℝ)] [(⟨"b", "u", [(1:ℝ)], "t1"⟩ : Row)]
      = some (⟨"b", "u", [(1:ℝ)], "t1"⟩, JSVal.num 1) := by
    unfold acceptedMatch
    rw [hsel]
    show (if jsLt (JSVal.num 1) (JSVal.num 0.6) then none
        else some ((⟨"b", "u", [(1:ℝ)], "t1"⟩ : Row), JSVal.num 1))
        = some ((⟨"b", "u", [(1:ℝ)], "t1"⟩ : Row), JSVal.num 1)
    rw [if_neg (show ¬jsLt (JSVal.num 1) (JSVal.num 0.6) = true from
      fun hc => absurd (of_decide_eq_true hc) (by norm_num))]
  refine ⟨hacc, ?_, rfl⟩
  unfold queryHandler
  rw [if_neg (by simp), hacc]

/-- C7 amended: whenever the acceptance gate admits a best match but the
bucket holds no artifact under that match's id, the handler returns the same
notFound outcome as a genuine no-match; the two situations are conflated. -/
theorem c7_amended_conflated_missing_artifact (q : List ℝ) (rows : List Row)
    (r : Row) (s : JSVal) (bucket : String → Option String)
    (hacc : acceptedMatch q rows = some (r, s))
    (hmiss : bucket (r.id ++ ".svg") = none) :
    queryHandler q rows bucket = QueryOutcome.notFound := by
  cases rows with
  | nil =>
    rw [show acceptedMatch q [] = none from rfl] at hacc
    exact absurd hacc (by simp)
  | cons r0 rest =>
    unfold queryHandler
    rw [if_neg (by simp), hacc]
    show (match bucket (r.id ++ ".svg") with
        | none => QueryOutcome.notFound
        | some qr => QueryOutcome.found r.id r.text qr s r.created_at)
        = QueryOutcome.notFound
    rw [hmiss]

/-- Witness for the amended C7: accepted single-row match, empty bucket. -/
theorem c7_amended_conflated_missing_artifact_witness :
    (acceptedMatch [(1:ℝ)] [(⟨"c", "v", [(1:ℝ)], "t2"⟩ : Row)]
        = some (⟨"c", "v", [(1:ℝ)], "t2"⟩, JSVal.num 1) ∧
      (fun _ : String => (none : Option String))
        ((Row.id ⟨"c", "v", [(1:ℝ)], "t2"⟩) ++ ".svg") = none) ∧
    queryHandler [(1:ℝ)] [(⟨"c", "v", [(1:ℝ)], "t2"⟩ : Row)] (fun _ => none)
      = QueryOutcome.notFound := by
  have hsel : selectLoop [(1:ℝ)] [(⟨"c", "v", [(1:ℝ)], "t2"⟩ : Row)]
      = (some ⟨"c", "v", [(1:ℝ)], "t2"⟩, JSVal.num 1) := by
    rw [selectLoop_single_num ⟨"c", "v", [(1:ℝ)], "t2"⟩ [(1:ℝ)] 1 cos_one_one]
    rw [show cosineSimilarity [(1:ℝ)] (Row.embedding ⟨"c", "v", [(1:ℝ)], "t2"⟩)
        = JSVal.num 1 from cos_one_one]
  have hacc : acceptedMatch [(1:ℝ)] [(⟨"c", "v", [(1:ℝ)], "t2"⟩ : Row)]
      = some (⟨"c", "v", [(1:ℝ)], "t2"⟩, JSVal.num 1) := by
    unfold acceptedMatch
    rw [hsel]
    show (if jsLt (JSVal.num 1) (JSVal.num 0.6) then none
        else some ((⟨"c", "v", [(1:ℝ)], "t2"⟩ : Row), JSVal.num 1))
        = some ((⟨"c", "v", [(1:ℝ)], "t2"⟩ : Row), JSVal.num 1)
    rw [if_neg (show ¬jsLt (JSVal.num 1) (JSVal.num 0.6) = true from
      fun hc => absurd (of_decide_eq_true hc) (by norm_num))]
  exact ⟨⟨hacc, rfl⟩,
    c7_amended_conflated_missing_artifact [(1:ℝ)] _ _ _ (fun _ => none) hacc rfl⟩

/-- C8: registration renders the artifact and persists it before embedding
and before the row insert; when a later step fails (embedding provider
failure, or the row insert rejected), the handler returns the internal-error
outcome with the freshly rendered artifact still stored under id ++ ".svg"
and the entries table unchanged — no compensation or rollback. -/
theorem c8_ordered_steps_no_rollback (rid text : String)
    (render : String → String) (embed : String → Option (List ℝ)) (now : String)
    (st : Stores)
    (hfail : embed text = none
      ∨ ∃ e, embed text = some e ∧ st.rows.any (fun r => r.id == rid) = true) :
    (encodeHandler rid text render embed now st).1 = EncodeOutcome.internalError ∧
    (encodeHandler rid text render embed now st).2.bucket (rid ++ ".svg")
      = some (render text) ∧
    (encodeHandler rid text render embed now st).2.rows = st.rows := by
  rcases hfail with hf | ⟨e, he, hdup⟩
  · refine ⟨?_, ?_, ?_⟩ <;> simp [encodeHandler, hf]
  · refine ⟨?_, ?_, ?_⟩ <;> simp [encodeHandler, he, hdup]

/-- Witness for C8: embedding fails, the artifact stays, no row is written,
and the outcome is the internal error. -/
theorem c8_ordered_steps_no_rollback_witness :
    ((fun _ : String => (none : Option (List ℝ))) "t" = none) ∧
    ((encodeHandler "a" "t" (fun s => s) (fun _ => none) "ts"
        ⟨fun _ => none, []⟩).1 = EncodeOutcome.internalError ∧
      (encodeHandler "a" "t" (fun s => s) (fun _ => none) "ts"
        ⟨fun _ => none, []⟩).2.bucket ("a" ++ ".svg") = some "t" ∧
      (encodeHandler "a" "t" (fun s => s) (fun _ => none) "ts"
        ⟨fun _ => none, []⟩).2.rows = []) :=
  ⟨rfl, c8_ordered_steps_no_rollback "a" "t" (fun s => s) (fun _ => none) "ts"
    ⟨fun _ => none, []⟩ (Or.inl rfl)⟩

/-- C10: registering under an id that already exists first overwrites that
id's artifact in the bucket with the rendering of the NEW text, then the row
insert is rejected by the primary-key constraint, so the handler returns the
internal-error outcome, the stored rows (and so the old row's text,
fingerprint and createdAt) are unchanged, and the old row now coexists with
an artifact rendered from the new text. -/
theorem c10_duplicate_id_divergence (rid textNew : String)
    (render : String → String) (embed : String → Option (List ℝ)) (now : String)
    (st : Stores) (old : Row) (hold : old ∈ st.rows) (hid : old.id = rid)
    (e : List ℝ) (hembed : embed textNew = some e) :
    (encodeHandler rid textNew render embed now st).1
      = EncodeOutcome.internalError ∧
    (encodeHandler rid textNew render embed now st).2.bucket (rid ++ ".svg")
      = some (render textNew) ∧
    (encodeHandler rid textNew render embed now st).2.rows = st.rows ∧
    old ∈ (encodeHandler rid textNew render embed now st).2.rows := by
  have hdup : st.rows.any (fun r => r.id == rid) = true := by
    rw [List.any_eq_true]
    exact ⟨old, hold, by rw [hid]; simp⟩
  refine ⟨?_, ?_, ?_, ?_⟩ <;> simp [encodeHandler, hembed, hdup, hold]

/-- Witness for C10: a stored row with id "a" and text "old", re-registered
with the same id and new text "new". -/
theorem c10_duplicate_id_divergence_witness :
    ((⟨"a", "old", [(1:ℝ)], "t0"⟩ : Row) ∈ [(⟨"a", "old", [(1:ℝ)], "t0"⟩ : Row)] ∧
      Row.id ⟨"a", "old", [(1:ℝ)], "t0"⟩ = "a" ∧
      (fun _ : String => some [(2:ℝ)]) "new" = some [(2:ℝ)]) ∧
    ((encodeHandler "a" "new" (fun s => s) (fun _ => some [(2:ℝ)]) "t1"
        ⟨fun _ => none, [⟨"a", "old", [(1:ℝ)], "t0"⟩]⟩).1
        = EncodeOutcome.internalError ∧
      (encodeHandler "a" "new" (fun s => s) (fun _ => some [(2:ℝ)]) "t1"
        ⟨fun _ => none, [⟨"a", "old", [(1:ℝ)], "t0"⟩]⟩).2.bucket ("a" ++ ".svg")
        = some "new" ∧
      (encodeHandler "a" "new" (fun s => s) (fun _ => some [(2:ℝ)]) "t1"
        ⟨fun _ => none, [⟨"a", "old", [(1:ℝ)], "t0"⟩]⟩).2.rows
        = [⟨"a", "old", [(1:ℝ)], "t0"⟩] ∧
      (⟨"a", "old", [(1:ℝ)], "t0"⟩ : Row)
        ∈ (encodeHandler "a" "new" (fun s => s) (fun _ => some [(2:ℝ)]) "t1"
          ⟨fun _ => none, [⟨"a", "old", [(1:ℝ)], "t0"⟩]⟩).2.rows) :=
  ⟨⟨List.mem_singleton.mpr rfl, rfl, rfl⟩,
    c10_duplicate_id_divergence "a" "new" (fun s => s) (fun _ => some [(2:ℝ)])
      "t1" ⟨fun _ => none, [⟨"a", "old", [(1:ℝ)], "t0"⟩]⟩
      ⟨"a", "old", [(1:ℝ)], "t0"⟩ (List.mem_singleton.mpr rfl) rfl [(2:ℝ)] rfl⟩

end Memvid
